import Mathlib

/-!
Verification of the DataViz dashboard's filtering-and-aggregation pipeline
(src/app.py, callback update_dashboard). Order records are embedded as a
structure; pandas operations (boolean-mask filtering, groupby with sorted
keys, sort_values, rolling means, pivot with fillna) are embedded as
executable list functions. Dates are encoded as yyyymmdd natural numbers,
so comparison of encoded dates coincides with calendar comparison, and
currency amounts are rationals.
-/

namespace DataViz

/-- One row of the order table (spec section 3; the columns of
Amazon Sale Report.csv that the dashboard reads). -/
structure OrderRecord where
  order_id : Nat
  order_date : Nat
  order_status : String
  sale_amount : ℚ
  product_category : String
  fulfillment_type : String
  shipping_state : String
  business_to_business : Bool
  promotion_ids : Option String
deriving DecidableEq

/-- Sum of the Sale_Amount column. -/
def sumSale (v : List OrderRecord) : ℚ :=
  (v.map (fun r => r.sale_amount)).sum

/-- The rows whose Order_Status is not Cancelled
(app.py line 462: filtered_data[filtered_data[Order_Status] != Cancelled]). -/
def nonCancelled (v : List OrderRecord) : List OrderRecord :=
  v.filter (fun r => r.order_status != "Cancelled")

/-- Date-range mask of update_dashboard (app.py lines 451-455): the bounds
are applied only under the conjunction test on both pick values. -/
def applyDateRange (sd ed : Option Nat) (v : List OrderRecord) : List OrderRecord :=
  match sd, ed with
  | some s, some e =>
      v.filter (fun r => decide (s ≤ r.order_date) && decide (r.order_date ≤ e))
  | _, _ => v

/-- Category mask of update_dashboard (app.py lines 458-459). -/
def applyCategory (cat : Option String) (v : List OrderRecord) : List OrderRecord :=
  match cat with
  | some c => if c = "All Categories" then v else v.filter (fun r => r.product_category == c)
  | none => v

/-- The full filter of update_dashboard (app.py lines 450-459): date range,
then category. -/
def filterData (base : List OrderRecord) (sd ed : Option Nat) (cat : Option String) :
    List OrderRecord :=
  applyCategory cat (applyDateRange sd ed base)

/-- Number of Cancelled rows (app.py line 475). -/
def cancelledCount (v : List OrderRecord) : Nat :=
  (v.filter (fun r => r.order_status == "Cancelled")).length

/-- The four KPI scalars. -/
structure Kpis where
  total_orders : Nat
  total_revenue : ℚ
  cancellation_rate : ℚ
  avg_order_value : ℚ
deriving DecidableEq

/-- KPI computation of update_dashboard (app.py lines 473-477), including
the two positivity guards. -/
def computeKpis (fa fnc : List OrderRecord) : Kpis :=
  { total_orders := fa.length
    total_revenue := sumSale fnc
    cancellation_rate :=
      if fa.length > 0 then (cancelledCount fa : ℚ) / (fa.length : ℚ) * 100 else 0
    avg_order_value :=
      if fnc.length > 0 then sumSale fnc / (fnc.length : ℚ) else 0 }

/-- C1: on every filtered view pair produced by the filter, the KPI bundle
satisfies total_orders = count(filtered_all),
total_revenue = sum of sale_amount over filtered_non_cancelled,
cancellation_rate = cancelled/total*100 with value 0 when total_orders = 0,
and avg_order_value = total_revenue/count(filtered_non_cancelled) with
value 0 when that count is 0; no division-by-zero guard is missed. -/
theorem kpis_match_spec_formulas (base : List OrderRecord) (sd ed : Option Nat)
    (cat : Option String) :
    (computeKpis (filterData base sd ed cat) (nonCancelled (filterData base sd ed cat))).total_orders
        = (filterData base sd ed cat).length
    ∧ (computeKpis (filterData base sd ed cat) (nonCancelled (filterData base sd ed cat))).total_revenue
        = sumSale (nonCancelled (filterData base sd ed cat))
    ∧ (computeKpis (filterData base sd ed cat) (nonCancelled (filterData base sd ed cat))).cancellation_rate
        = (if (filterData base sd ed cat).length = 0 then 0
           else (cancelledCount (filterData base sd ed cat) : ℚ)
                  / ((filterData base sd ed cat).length : ℚ) * 100)
    ∧ (computeKpis (filterData base sd ed cat) (nonCancelled (filterData base sd ed cat))).avg_order_value
        = (if (nonCancelled (filterData base sd ed cat)).length = 0 then 0
           else sumSale (nonCancelled (filterData base sd ed cat))
                  / ((nonCancelled (filterData base sd ed cat)).length : ℚ)) := by
  refine ⟨rfl, rfl, ?_, ?_⟩ <;>
    · simp only [computeKpis]
      rcases Nat.eq_zero_or_pos (filterData base sd ed cat).length with h | h <;>
        rcases Nat.eq_zero_or_pos (nonCancelled (filterData base sd ed cat)).length with h2 | h2 <;>
        simp [h, h2, Nat.pos_iff_ne_zero.mp, Nat.not_lt.mpr, Nat.pos_iff_ne_zero]

/-- A concrete non-cancelled order used in counterexamples. -/
def cexOrder : OrderRecord :=
  { order_id := 1, order_date := 20240105, order_status := "Shipped", sale_amount := 10,
    product_category := "A", fulfillment_type := "Amazon", shipping_state := "S",
    business_to_business := false, promotion_ids := none }

/-- C3 counterexample: with start_date = 20240110 supplied and end_date
absent, the record dated 20240105 violates the supplied lower bound yet
passes the filter unchanged — the present bound is not applied. -/
theorem one_sided_bound_is_ignored :
    filterData [cexOrder] (some 20240110) none none = [cexOrder]
    ∧ cexOrder.order_date < 20240110 := by
  decide

/-- C3 amended: the date bounds are applied only when both are present; if
either bound is absent the date predicate is skipped entirely (only the
category mask runs), with no clamping and no error. -/
theorem date_filter_requires_both_bounds (base : List OrderRecord) (s e : Nat)
    (cat : Option String) :
    filterData base (some s) none cat = applyCategory cat base
    ∧ filterData base none (some e) cat = applyCategory cat base
    ∧ filterData base none none cat = applyCategory cat base :=
  ⟨rfl, rfl, rfl⟩

section SortedKeys

variable {α : Type} [LinearOrder α] [DecidableEq α]

/-- Insert a key into a strictly ascending list, dropping duplicates. Used
to model the sorted distinct group keys that pandas groupby(sort=True)
produces. -/
def insortDedup (x : α) : List α → List α
  | [] => [x]
  | y :: ys =>
      if x = y then y :: ys
      else if x < y then x :: y :: ys
      else y :: insortDedup x ys

/-- The ascending list of distinct keys of a column, as pandas groupby
orders its groups. -/
def sortedKeys (l : List α) : List α := l.foldr insortDedup []

theorem mem_insortDedup (x z : α) (l : List α) :
    z ∈ insortDedup x l ↔ z = x ∨ z ∈ l := by
  induction l with
  | nil => simp [insortDedup]
  | cons y ys ih =>
      simp only [insortDedup]
      split
      · rename_i h1
        subst h1
        simp only [List.mem_cons]
        tauto
      · split
        · simp [List.mem_cons]
        · simp only [List.mem_cons, ih]
          tauto

theorem sorted_insortDedup (x : α) (l : List α)
    (h : l.Pairwise (fun a b => a < b)) :
    (insortDedup x l).Pairwise (fun a b => a < b) := by
  induction l with
  | nil => simp [insortDedup]
  | cons y ys ih =>
      rcases List.pairwise_cons.mp h with ⟨hy, hys⟩
      simp only [insortDedup]
      split
      · exact h
      · rename_i h1
        split
        · rename_i h2
          exact List.pairwise_cons.mpr
            ⟨fun z hz => by
              rcases List.mem_cons.mp hz with rfl | hz2
              · exact h2
              · exact lt_trans h2 (hy z hz2), h⟩
        · rename_i h2
          have hyx : y < x := lt_of_le_of_ne (le_of_not_lt h2) (fun he => h1 he.symm)
          exact List.pairwise_cons.mpr
            ⟨fun z hz => by
              rcases (mem_insortDedup x z ys).mp hz with rfl | hz2
              · exact hyx
              · exact hy z hz2, ih hys⟩

theorem mem_sortedKeys (z : α) (l : List α) :
    z ∈ sortedKeys l ↔ z ∈ l := by
  induction l with
  | nil => simp [sortedKeys]
  | cons y ys ih =>
      simp only [sortedKeys, List.foldr_cons] at *
      rw [mem_insortDedup, ih, List.mem_cons]

theorem sorted_sortedKeys (l : List α) :
    (sortedKeys l).Pairwise (fun a b => a < b) := by
  induction l with
  | nil => simp [sortedKeys]
  | cons y ys ih => exact sorted_insortDedup y _ ih

end SortedKeys

/-- Daily aggregation of update_dashboard (app.py lines 529-532):
groupby on the calendar date of Order_Date over the filtered all-orders
view, counting Order_ID and summing Sale_Amount; groups come out in
ascending date order. Each entry is (date, order_count, revenue). -/
def dailySales (v : List OrderRecord) : List (Nat × Nat × ℚ) :=
  (sortedKeys (v.map (fun r => r.order_date))).map
    (fun d => (d, (v.filter (fun r => r.order_date == d)).length,
               sumSale (v.filter (fun r => r.order_date == d))))

/-- The revenue column of the daily aggregation. -/
def dailyRevenue (v : List OrderRecord) : List ℚ :=
  (dailySales v).map (fun e => e.2.2)

/-- Arithmetic mean of a list of rationals (pandas Series.mean). -/
def listMean (xs : List ℚ) : ℚ := xs.sum / (xs.length : ℚ)

/-- The rolling-average column of update_dashboard (app.py line 534):
Series.rolling(window=7, min_periods=1).mean() — at each position the mean
over the trailing window of the last at-most-7 values ending there. -/
def rollingAvg (xs : List ℚ) : List ℚ :=
  (List.range xs.length).map (fun i =>
    ((xs.take (i + 1)).drop (i + 1 - 7)).sum
      / ((((xs.take (i + 1)).drop (i + 1 - 7)).length : ℚ)))

theorem length_rollingAvg (xs : List ℚ) : (rollingAvg xs).length = xs.length := by
  simp [rollingAvg]

/-- C5: on every daily series, the rolling average at position i is the
mean of revenue[max(0,i-6) .. i] (trailing window of up to 7 points,
min_periods=1 semantics); at position 0 it equals revenue[0] and at every
position i < 6 it equals the mean of revenue[0..i]. -/
theorem rolling_avg_is_trailing_window_mean (v : List OrderRecord) (i : Nat)
    (h : i < (dailyRevenue v).length) :
    (rollingAvg (dailyRevenue v)).getD i 0
        = listMean (((dailyRevenue v).drop (i - 6)).take (i - (i - 6) + 1))
    ∧ (i = 0 → (rollingAvg (dailyRevenue v)).getD 0 0 = (dailyRevenue v).getD 0 0)
    ∧ (i < 6 → (rollingAvg (dailyRevenue v)).getD i 0
        = listMean ((dailyRevenue v).take (i + 1))) := by
  have key : ∀ j : Nat, j < (dailyRevenue v).length →
      (rollingAvg (dailyRevenue v)).getD j 0
        = listMean (((dailyRevenue v).drop (j - 6)).take (j - (j - 6) + 1)) := by
    intro j hj
    have hwin : ((dailyRevenue v).take (j + 1)).drop (j + 1 - 7)
        = ((dailyRevenue v).drop (j - 6)).take (j - (j - 6) + 1) := by
      rw [List.drop_take]
      congr 1
      omega
    simp only [rollingAvg, List.getD, List.get?_eq_getElem?, List.getElem?_map,
      List.getElem?_range hj, Option.map_some', Option.getD_some]
    rw [hwin, listMean]
  refine ⟨key i h, ?_, ?_⟩
  · intro hi
    subst hi
    rw [key 0 h]
    rcases hx : dailyRevenue v with _ | ⟨a, t⟩
    · rw [hx] at h; simp at h
    · simp [listMean]
  · intro hi
    rw [key i h]
    have h6 : i - 6 = 0 := by omega
    rw [h6]
    simp only [List.drop_zero, Nat.sub_zero]

/-- A record for the two-day example view. -/
def recDayA : OrderRecord :=
  { order_id := 1, order_date := 20240101, order_status := "Shipped", sale_amount := 10,
    product_category := "A", fulfillment_type := "Amazon", shipping_state := "S",
    business_to_business := false, promotion_ids := none }

/-- A second record for the two-day example view. -/
def recDayB : OrderRecord :=
  { order_id := 2, order_date := 20240102, order_status := "Shipped", sale_amount := 30,
    product_category := "A", fulfillment_type := "Amazon", shipping_state := "S",
    business_to_business := false, promotion_ids := none }

/-- A two-day example view for witnesses. -/
def exampleDaysView : List OrderRecord := [recDayA, recDayB]

/-- Witness for C5 at the two-day example view and position 1. -/
theorem rolling_avg_witness :
    1 < (dailyRevenue exampleDaysView).length
    ∧ ((rollingAvg (dailyRevenue exampleDaysView)).getD 1 0
        = listMean (((dailyRevenue exampleDaysView).drop (1 - 6)).take (1 - (1 - 6) + 1))
      ∧ (1 = 0 → (rollingAvg (dailyRevenue exampleDaysView)).getD 0 0
          = (dailyRevenue exampleDaysView).getD 0 0)
      ∧ (1 < 6 → (rollingAvg (dailyRevenue exampleDaysView)).getD 1 0
          = listMean ((dailyRevenue exampleDaysView).take (1 + 1)))) :=
  ⟨by decide, rolling_avg_is_trailing_window_mean exampleDaysView 1 (by decide)⟩

/-- C9: the daily series over every filtered view is computed on the
all-orders view (no cancellation restriction appears in its filters), is
sorted strictly ascending by date, contains exactly the dates carrying at
least one order, and per entry counts orders and sums sale_amount of that
calendar day. -/
theorem daily_series_sorted_and_dense (base : List OrderRecord) (sd ed : Option Nat)
    (cat : Option String) :
    (dailySales (filterData base sd ed cat)).Pairwise (fun a b => a.1 < b.1)
    ∧ (∀ d : Nat, d ∈ (dailySales (filterData base sd ed cat)).map (fun e => e.1)
        ↔ ∃ r ∈ filterData base sd ed cat, r.order_date = d)
    ∧ (∀ e ∈ dailySales (filterData base sd ed cat),
        e.2.1 = ((filterData base sd ed cat).filter (fun r => r.order_date == e.1)).length
        ∧ e.2.2 = sumSale ((filterData base sd ed cat).filter (fun r => r.order_date == e.1))) := by
  refine ⟨?_, ?_, ?_⟩
  · refine List.pairwise_map.mpr ?_
    simpa using sorted_sortedKeys ((filterData base sd ed cat).map (fun r => r.order_date))
  · intro d
    rw [dailySales, List.map_map]
    have hc : ((fun e => e.1) ∘ fun d : Nat =>
        ((d, ((filterData base sd ed cat).filter (fun r => r.order_date == d)).length,
          sumSale ((filterData base sd ed cat).filter (fun r => r.order_date == d))) :
            Nat × Nat × ℚ)) = fun d => d := rfl
    rw [hc, List.map_id']
    rw [mem_sortedKeys, List.mem_map]
  · intro e he
    rw [dailySales, List.mem_map] at he
    obtain ⟨d, _, rfl⟩ := he
    exact ⟨rfl, rfl⟩

/-- Witness for C9 at the two-day example view: the second date is listed,
and the first entry carries the count of its day. -/
theorem daily_series_witness :
    20240102 ∈ (dailySales (filterData exampleDaysView none none none)).map (fun e => e.1)
    ∧ ((20240101 : Nat), (1 : Nat), (10 : ℚ)).2.1
        = ((filterData exampleDaysView none none none).filter
            (fun r => r.order_date == ((20240101 : Nat), (1 : Nat), (10 : ℚ)).1)).length :=
  ⟨((daily_series_sorted_and_dense exampleDaysView none none none).2.1 20240102).mpr
      ⟨recDayB, by decide, rfl⟩,
    ((daily_series_sorted_and_dense exampleDaysView none none none).2.2
      ((20240101 : Nat), (1 : Nat), (10 : ℚ))
      (by norm_num [dailySales, filterData, applyCategory, applyDateRange, exampleDaysView,
        recDayA, recDayB, sortedKeys, insortDedup, sumSale])).1⟩

section SortDesc

variable {α : Type} {β : Type} [LinearOrder β]

/-- Insert behind every element of at-least-equal measure: one step of a
stable descending sort, the determinization used here for pandas
sort_values(ascending=False) applied to already key-ascending groups. -/
def insertDescBy (m : α → β) (x : α) : List α → List α
  | [] => [x]
  | y :: ys => if m y < m x then x :: y :: ys else y :: insertDescBy m x ys

/-- Stable descending sort by a measure. -/
def sortDescBy (m : α → β) (l : List α) : List α :=
  l.foldl (fun acc x => insertDescBy m x acc) []

theorem mem_insertDescBy (m : α → β) (x z : α) (l : List α) :
    z ∈ insertDescBy m x l ↔ z = x ∨ z ∈ l := by
  induction l with
  | nil => simp [insertDescBy]
  | cons y ys ih =>
      simp only [insertDescBy]
      split
      · simp [List.mem_cons]
      · simp only [List.mem_cons, ih]
        tauto

theorem sorted_insertDescBy (m : α → β) (x : α) (l : List α)
    (h : l.Pairwise (fun a b => m b ≤ m a)) :
    (insertDescBy m x l).Pairwise (fun a b => m b ≤ m a) := by
  induction l with
  | nil => simp [insertDescBy]
  | cons y ys ih =>
      rcases List.pairwise_cons.mp h with ⟨hy, hys⟩
      simp only [insertDescBy]
      split
      · rename_i hlt
        refine List.pairwise_cons.mpr ⟨?_, h⟩
        intro z hz
        rcases List.mem_cons.mp hz with rfl | hz2
        · exact le_of_lt hlt
        · exact le_trans (hy z hz2) (le_of_lt hlt)
      · rename_i hnlt
        refine List.pairwise_cons.mpr ⟨?_, ih hys⟩
        intro z hz
        rcases (mem_insertDescBy m x z ys).mp hz with rfl | hz2
        · exact le_of_not_lt hnlt
        · exact hy z hz2

theorem length_insertDescBy (m : α → β) (x : α) (l : List α) :
    (insertDescBy m x l).length = l.length + 1 := by
  induction l with
  | nil => simp [insertDescBy]
  | cons y ys ih =>
      simp only [insertDescBy]
      split
      · simp
      · simp [ih]

theorem sorted_foldl_insertDescBy (m : α → β) (l acc : List α)
    (h : acc.Pairwise (fun a b => m b ≤ m a)) :
    (l.foldl (fun a x => insertDescBy m x a) acc).Pairwise (fun a b => m b ≤ m a) := by
  induction l generalizing acc with
  | nil => simpa using h
  | cons y ys ih => exact ih _ (sorted_insertDescBy m y acc h)

theorem sorted_sortDescBy (m : α → β) (l : List α) :
    (sortDescBy m l).Pairwise (fun a b => m b ≤ m a) :=
  sorted_foldl_insertDescBy m l [] (by simp)

theorem length_foldl_insertDescBy (m : α → β) (l acc : List α) :
    (l.foldl (fun a x => insertDescBy m x a) acc).length = acc.length + l.length := by
  induction l generalizing acc with
  | nil => simp
  | cons y ys ih =>
      simp only [List.foldl_cons, ih, length_insertDescBy, List.length_cons]
      omega

theorem length_sortDescBy (m : α → β) (l : List α) :
    (sortDescBy m l).length = l.length := by
  simpa using length_foldl_insertDescBy m l []

theorem mem_foldl_insertDescBy (m : α → β) (l acc : List α) (z : α) :
    z ∈ l.foldl (fun a x => insertDescBy m x a) acc ↔ z ∈ acc ∨ z ∈ l := by
  induction l generalizing acc with
  | nil => simp
  | cons y ys ih =>
      simp only [List.foldl_cons, ih, mem_insertDescBy, List.mem_cons]
      tauto

theorem mem_sortDescBy (m : α → β) (l : List α) (z : α) :
    z ∈ sortDescBy m l ↔ z ∈ l := by
  simpa using mem_foldl_insertDescBy m l [] z

end SortDesc

/-- groupby(key).agg(sum Sale_Amount, count Order_ID) of update_dashboard
(app.py lines 578-581): one entry per distinct key, keys ascending. Each
entry is (key, revenue, order_count). -/
def groupAgg (key : OrderRecord → String) (v : List OrderRecord) : List (String × ℚ × Nat) :=
  (sortedKeys (v.map key)).map (fun k =>
    (k, sumSale (v.filter (fun r => key r == k)),
     (v.filter (fun r => key r == k)).length))

/-- The categorical ranking of update_dashboard (app.py line 583):
sort_values(Sale_Amount, ascending=False).head(top_n) on the grouped
aggregation. -/
def rankBy (key : OrderRecord → String) (v : List OrderRecord) (topn : Nat) :
    List (String × ℚ × Nat) :=
  (sortDescBy (fun e => e.2.1) (groupAgg key v)).take topn

/-- The ordering C6 asserts: descending revenue, ties broken by descending
order_count, then by key ascending. -/
def specRankRel (a b : String × ℚ × Nat) : Prop :=
  b.2.1 < a.2.1 ∨ (b.2.1 = a.2.1 ∧ (b.2.2 < a.2.2 ∨ (b.2.2 = a.2.2 ∧ a.1 < b.1)))

instance (a b : String × ℚ × Nat) : Decidable (specRankRel a b) := by
  unfold specRankRel
  infer_instance

theorem strLtAB : ("A" : String) < "B" := by
  rw [String.lt_iff_toList_lt]
  decide

theorem strNotLtBA : ¬ ("B" : String) < "A" := by
  rw [String.lt_iff_toList_lt]
  decide

theorem strLtXY : ("X" : String) < "Y" := by
  rw [String.lt_iff_toList_lt]
  decide

theorem strNotLtYX : ¬ ("Y" : String) < "X" := by
  rw [String.lt_iff_toList_lt]
  decide

/-- An order in category A worth 10. -/
def recCatA : OrderRecord :=
  { order_id := 1, order_date := 20240101, order_status := "Shipped", sale_amount := 10,
    product_category := "A", fulfillment_type := "Amazon", shipping_state := "S",
    business_to_business := false, promotion_ids := none }

/-- A first order in category B worth 5. -/
def recCatB1 : OrderRecord :=
  { order_id := 2, order_date := 20240101, order_status := "Shipped", sale_amount := 5,
    product_category := "B", fulfillment_type := "Amazon", shipping_state := "S",
    business_to_business := false, promotion_ids := none }

/-- A second order in category B worth 5. -/
def recCatB2 : OrderRecord :=
  { order_id := 3, order_date := 20240101, order_status := "Shipped", sale_amount := 5,
    product_category := "B", fulfillment_type := "Amazon", shipping_state := "S",
    business_to_business := false, promotion_ids := none }

/-- A view where categories A and B tie on revenue (10 each) but B has
more orders (2 vs 1). -/
def tieView : List OrderRecord := [recCatA, recCatB1, recCatB2]

/-- C6 counterexample: with revenues tied at 10 and order counts 1 vs 2,
the ranking emits A (count 1) before B (count 2): the claimed descending
order_count tie-break does not hold. -/
theorem ranking_has_no_order_count_tie_break :
    ¬ (rankBy (fun r => r.product_category) tieView 10).Pairwise specRankRel := by
  have hk : sortedKeys (tieView.map (fun r => r.product_category)) = ["A", "B"] := by
    simp only [tieView, recCatA, recCatB1, recCatB2, List.map_cons, List.map_nil,
      sortedKeys, List.foldr_cons, List.foldr_nil, insortDedup]
    simp +decide [strLtAB, strNotLtBA]
  have h : rankBy (fun r => r.product_category) tieView 10
      = [("A", (10 : ℚ), 1), ("B", (10 : ℚ), 2)] := by
    simp only [rankBy, groupAgg]
    rw [hk]
    simp +decide only [sortDescBy, insertDescBy,
      sumSale, tieView, recCatA, recCatB1, recCatB2, List.map_cons, List.map_nil,
      List.filter_cons, List.filter_nil, List.foldl_cons,
      List.foldl_nil, List.sum_cons, List.sum_nil, List.length_cons, List.length_nil]
    norm_num
  rw [h]
  decide

/-- C6 amended: the ranking is ordered weakly descending by revenue (the
tie order among equal-revenue groups is whatever the sort leaves from the
key-ascending group order, with no order_count tie-break), its length is
min(top_n, number of groups) — so all groups are returned when fewer than
top_n exist — and every emitted entry is one of the aggregated groups. -/
theorem ranking_sorted_desc_and_truncated (key : OrderRecord → String)
    (v : List OrderRecord) (topn : Nat) :
    (rankBy key v topn).Pairwise (fun a b => b.2.1 ≤ a.2.1)
    ∧ (rankBy key v topn).length = min topn (groupAgg key v).length
    ∧ ∀ e ∈ rankBy key v topn, e ∈ groupAgg key v := by
  refine ⟨?_, ?_, ?_⟩
  · exact List.Pairwise.sublist (List.take_sublist _ _) (sorted_sortDescBy _ _)
  · rw [rankBy, List.length_take, length_sortDescBy]
  · intro e he
    have h2 := (List.take_sublist _ _).subset he
    exact (mem_sortDescBy _ _ e).mp h2

/-- Witness for C6 at the tie view with top_n = 1: the emitted entry is a
real aggregated group. -/
theorem ranking_witness :
    ("A", (10 : ℚ), 1) ∈ groupAgg (fun r => r.product_category) tieView :=
  (ranking_sorted_desc_and_truncated (fun r => r.product_category) tieView 1).2.2
    ("A", (10 : ℚ), 1)
    (by
      have hk : sortedKeys (tieView.map (fun r => r.product_category)) = ["A", "B"] := by
        simp only [tieView, recCatA, recCatB1, recCatB2, List.map_cons, List.map_nil,
          sortedKeys, List.foldr_cons, List.foldr_nil, insortDedup]
        simp +decide [strLtAB, strNotLtBA]
      simp only [rankBy, groupAgg]
      rw [hk]
      simp +decide only [sortDescBy, insertDescBy,
        sumSale, tieView, recCatA, recCatB1, recCatB2, List.map_cons, List.map_nil,
        List.filter_cons, List.filter_nil, List.foldl_cons,
        List.foldl_nil, List.sum_cons, List.sum_nil, List.length_cons, List.length_nil]
      norm_num)

/-- Per-partition aggregates of the promotion-impact block (app.py lines
905-909): Sale_Amount sum and mean, Order_ID count, on one groupby group. -/
structure PromoStats where
  total_sales : ℚ
  average_order_value : ℚ
  order_count : Nat
deriving DecidableEq

/-- Partition key of app.py line 902: Promotion_IDs.notna(). -/
def hasPromo (r : OrderRecord) : Bool := r.promotion_ids.isSome

/-- One side of the promotion partition. -/
def promoGroup (v : List OrderRecord) (b : Bool) : List OrderRecord :=
  v.filter (fun r => hasPromo r == b)

/-- The aggregates pandas computes on one non-empty groupby group. -/
def promoStats (g : List OrderRecord) : PromoStats :=
  { total_sales := sumSale g
    average_order_value := sumSale g / (g.length : ℚ)
    order_count := g.length }

/-- The promo-impact table of update_dashboard (app.py lines 902-911):
groupby(has_promo) yields one row per non-empty partition only, the False
group before the True group. -/
def promoImpact (v : List OrderRecord) : List (Bool × PromoStats) :=
  (if promoGroup v false ≠ [] then [(false, promoStats (promoGroup v false))] else [])
    ++ (if promoGroup v true ≠ [] then [(true, promoStats (promoGroup v true))] else [])

/-- A non-cancelled order that carries a promotion id. -/
def recPromo : OrderRecord :=
  { order_id := 7, order_date := 20240101, order_status := "Shipped", sale_amount := 10,
    product_category := "A", fulfillment_type := "Amazon", shipping_state := "S",
    business_to_business := false, promotion_ids := some "PROMO-1" }

/-- C4 counterexample: on a view where every order has a promotion, the
result has a single row, for the with-promotion side only — the empty
without-promotion partition is omitted, not zero-filled. -/
theorem promo_empty_partition_omitted :
    (promoImpact [recPromo]).map Prod.fst = [true]
    ∧ (promoImpact [recPromo]).length = 1 := by
  decide

theorem promoGroup_length_split (v : List OrderRecord) :
    (promoGroup v false).length + (promoGroup v true).length = v.length := by
  have h : v.length = (v.filter (fun r => hasPromo r)).length
      + (v.filter (fun r => !(hasPromo r))).length :=
    List.length_eq_length_filter_add _
  simp only [promoGroup, beq_false, beq_true]
  omega

/-- C4 amended: the promo-impact result has one row per non-empty
partition only (an empty partition is omitted rather than included with
all-zero stats), and the order counts of the rows that are present still
sum to count(filtered_non_cancelled). -/
theorem promo_rows_present_iff_nonempty (v : List OrderRecord) :
    ((promoImpact v).map (fun e => e.2.order_count)).sum = v.length
    ∧ (∀ b : Bool,
        ((b, promoStats (promoGroup v b)) ∈ promoImpact v ↔ promoGroup v b ≠ [])) := by
  constructor
  · have hsplit := promoGroup_length_split v
    by_cases hf : promoGroup v false = [] <;> by_cases ht : promoGroup v true = []
    · have h1 : (promoGroup v false).length = 0 := by rw [hf]; rfl
      have h2 : (promoGroup v true).length = 0 := by rw [ht]; rfl
      simp [promoImpact, hf, ht]
      omega
    · have h1 : (promoGroup v false).length = 0 := by rw [hf]; rfl
      simp [promoImpact, hf, ht, promoStats]
      omega
    · have h2 : (promoGroup v true).length = 0 := by rw [ht]; rfl
      simp [promoImpact, hf, ht, promoStats]
      omega
    · simp [promoImpact, hf, ht, promoStats]
      omega
  · intro b
    cases b <;>
      by_cases hf : promoGroup v false = [] <;> by_cases ht : promoGroup v true = [] <;>
        simp [promoImpact, hf, ht]

/-- A two-order view with one promoted and one unpromoted order. -/
def promoMixView : List OrderRecord := [recPromo, recDayA]

/-- Witness for C4 at the mixed view: the with-promotion row is present
because its partition is non-empty. -/
theorem promo_rows_witness :
    (true, promoStats (promoGroup promoMixView true)) ∈ promoImpact promoMixView :=
  ((promo_rows_present_iff_nonempty promoMixView).2 true).mpr (by decide)

/-- Result of the cancellation-analysis block (app.py lines 690-768):
either the explicit no-data placeholder figure, or a chart built from the
per-category table. Each chart row is
(category, cancelled, not_cancelled, total_orders). -/
inductive CancelChart where
  | noData : CancelChart
  | chart : List (String × Nat × Nat × Nat) → CancelChart
deriving DecidableEq

/-- The cancellation analysis of update_dashboard (app.py lines 690-768):
the wide per-category table (unstack with fill 0), guarded by membership
of the Cancelled column, rows ordered by Total_Orders descending; the else
branch is the no-data placeholder. -/
def cancelAnalysis (fa : List OrderRecord) : CancelChart :=
  if fa.any (fun r => r.order_status == "Cancelled") then
    CancelChart.chart
      (sortDescBy (fun e => e.2.2.2)
        ((sortedKeys (fa.map (fun r => r.product_category))).map (fun c =>
          (c,
           (fa.filter (fun r => r.product_category == c
              && r.order_status == "Cancelled")).length,
           (fa.filter (fun r => r.product_category == c)).length
             - (fa.filter (fun r => r.product_category == c
                  && r.order_status == "Cancelled")).length,
           (fa.filter (fun r => r.product_category == c)).length))))
  else CancelChart.noData

/-- C8: when no record of the filtered set is Cancelled, the analyzer
returns the explicit no-data marker, which is distinct from every chart
value (in particular from any zero-filled ranking). -/
theorem no_cancellations_yield_marker (base : List OrderRecord) (sd ed : Option Nat)
    (cat : Option String)
    (h : ∀ r ∈ filterData base sd ed cat, r.order_status ≠ "Cancelled") :
    cancelAnalysis (filterData base sd ed cat) = CancelChart.noData
    ∧ ∀ l : List (String × Nat × Nat × Nat), CancelChart.noData ≠ CancelChart.chart l := by
  constructor
  · rw [cancelAnalysis, if_neg]
    simp only [List.any_eq_true, beq_iff_eq, not_exists]
    intro r
    rw [not_and]
    exact fun hr => h r hr
  · intro l hne
    cases hne

/-- Witness for C8: the two-day example view has no cancelled order, so
the callback returns the no-data marker. -/
theorem no_cancellations_witness :
    cancelAnalysis (filterData exampleDaysView none none none) = CancelChart.noData
    ∧ ∀ l : List (String × Nat × Nat × Nat), CancelChart.noData ≠ CancelChart.chart l :=
  no_cancellations_yield_marker exampleDaysView none none none (by decide)

/-- The process-global state touched by the callback: the base table, its
Month_Name column (absent before the first call writes it), and the two
module-level filtered-view globals set at app.py lines 465-467. -/
structure Globals where
  baseOrders : List OrderRecord
  baseMonthName : Option (List String)
  filteredGlobal : Option (List OrderRecord)
  filteredNonCancelledGlobal : Option (List OrderRecord)
deriving DecidableEq

/-- strftime month name of a yyyymmdd-encoded date (app.py line 954). -/
def monthName (d : Nat) : String :=
  match d / 100 % 100 with
  | 1 => "January" | 2 => "February" | 3 => "March" | 4 => "April"
  | 5 => "May" | 6 => "June" | 7 => "July" | 8 => "August"
  | 9 => "September" | 10 => "October" | 11 => "November" | _ => "December"

/-- The global-state effect of one update_dashboard call: lines 465-467
rebind amazon_sales_data_filtered and non_cancelled_orders_filtered, and
line 954 writes the Month_Name column onto the base table; the base rows
themselves are not reassigned. -/
def updateGlobals (g : Globals) (sd ed : Option Nat) (cat : Option String) : Globals :=
  { baseOrders := g.baseOrders
    baseMonthName := some (g.baseOrders.map (fun r => monthName r.order_date))
    filteredGlobal := some (filterData g.baseOrders sd ed cat)
    filteredNonCancelledGlobal := some (nonCancelled (filterData g.baseOrders sd ed cat)) }

/-- The process state right after load, before any callback ran. -/
def initialGlobals : Globals :=
  { baseOrders := exampleDaysView, baseMonthName := none,
    filteredGlobal := none, filteredNonCancelledGlobal := none }

/-- C10 counterexample: one call changes the observable global state — it
writes a Month_Name column the base table did not have and retains the
filtered views in process globals. -/
theorem update_mutates_global_state :
    updateGlobals initialGlobals none none none ≠ initialGlobals
    ∧ (updateGlobals initialGlobals none none none).baseMonthName
        = some ["January", "January"]
    ∧ initialGlobals.baseMonthName = none
    ∧ (updateGlobals initialGlobals none none none).filteredGlobal ≠ none := by
  decide

theorem applyDateRange_sublist (sd ed : Option Nat) (v : List OrderRecord) :
    (applyDateRange sd ed v).Sublist v := by
  rcases sd with _ | s <;> rcases ed with _ | e <;>
    simp only [applyDateRange] <;>
    first
      | exact List.Sublist.refl v
      | exact List.filter_sublist v

theorem applyCategory_sublist (cat : Option String) (v : List OrderRecord) :
    (applyCategory cat v).Sublist v := by
  rcases cat with _ | c
  · exact List.Sublist.refl v
  · simp only [applyCategory]
    split
    · exact List.Sublist.refl v
    · exact List.filter_sublist v

/-- C10 amended: a call leaves the base-table rows untouched but does
mutate process-global state: it overwrites the two filtered-view globals
with the fresh views (each a sublist of the unchanged base) and writes the
Month_Name column derived from the base dates. -/
theorem update_rewrites_derived_globals_only (g : Globals) (sd ed : Option Nat)
    (cat : Option String) :
    (updateGlobals g sd ed cat).baseOrders = g.baseOrders
    ∧ (updateGlobals g sd ed cat).filteredGlobal
        = some (filterData g.baseOrders sd ed cat)
    ∧ (updateGlobals g sd ed cat).filteredNonCancelledGlobal
        = some (nonCancelled (filterData g.baseOrders sd ed cat))
    ∧ (updateGlobals g sd ed cat).baseMonthName
        = some (g.baseOrders.map (fun r => monthName r.order_date))
    ∧ (filterData g.baseOrders sd ed cat).Sublist g.baseOrders
    ∧ (nonCancelled (filterData g.baseOrders sd ed cat)).Sublist
        (filterData g.baseOrders sd ed cat) :=
  ⟨rfl, rfl, rfl, rfl,
   List.Sublist.trans (applyCategory_sublist cat _) (applyDateRange_sublist sd ed _),
   List.filter_sublist _⟩

/-- Count of records of one (state, category) pair. -/
def pairCount (v : List OrderRecord) (s c : String) : Nat :=
  (v.filter (fun r => r.shipping_state == s && r.product_category == c)).length

/-- groupby([Shipping_State, Product_Category]).size() of the heatmap
block (app.py line 828): state-major, both levels ascending, one entry per
present pair; entries are (state, category, order_count). -/
def stateCatOrders (v : List OrderRecord) : List (String × String × Nat) :=
  (sortedKeys (v.map (fun r => r.shipping_state))).flatMap (fun s =>
    (sortedKeys ((v.filter (fun r => r.shipping_state == s)).map
        (fun r => r.product_category))).map (fun c => (s, c, pairCount v s c)))

/-- groupby(Shipping_State).size() (app.py line 832). -/
def totalPerState (v : List OrderRecord) : List (String × Nat) :=
  (sortedKeys (v.map (fun r => r.shipping_state))).map (fun s =>
    (s, (v.filter (fun r => r.shipping_state == s)).length))

/-- The top-N state names by order volume, sort_values descending then
head(N) (app.py lines 833-837). -/
def topStatesList (v : List OrderRecord) (N : Nat) : List String :=
  ((sortDescBy (fun e => e.2) (totalPerState v)).take N).map Prod.fst

/-- The isin(top_n_states_list) restriction of the pair table
(app.py line 839). -/
def restrictedPairs (v : List OrderRecord) (N : Nat) : List (String × String × Nat) :=
  (stateCatOrders v).filter (fun e => (topStatesList v N).contains e.1)

/-- First-appearance dedup of a string column (the level order pandas
factorize assigns when pivoting), with a seen accumulator. -/
def dedupAppearAux (seen : List String) : List String → List String
  | [] => []
  | x :: xs =>
      if x ∈ seen then dedupAppearAux seen xs
      else x :: dedupAppearAux (x :: seen) xs

/-- First-appearance dedup of a string column. -/
def dedupAppear (l : List String) : List String := dedupAppearAux [] l

/-- Row labels of heatmap_data (app.py lines 845-849). -/
def pivotRows (v : List OrderRecord) (N : Nat) : List String :=
  dedupAppear ((restrictedPairs v N).map (fun e => e.1))

/-- Column labels of heatmap_data. -/
def pivotCols (v : List OrderRecord) (N : Nat) : List String :=
  dedupAppear ((restrictedPairs v N).map (fun e => e.2.1))

/-- One cell of heatmap_data, with the fillna(0) default (app.py line 849). -/
def pivotCell (v : List OrderRecord) (N : Nat) (s c : String) : Nat :=
  match (restrictedPairs v N).find? (fun e => e.1 == s && e.2.1 == c) with
  | some e => e.2.2
  | none => 0

/-- The dense heatmap matrix, row-major. -/
def pivotMatrix (v : List OrderRecord) (N : Nat) : List (List Nat) :=
  (pivotRows v N).map (fun s => (pivotCols v N).map (fun c => pivotCell v N s c))

theorem mem_dedupAppearAux (seen l : List String) (z : String) :
    z ∈ dedupAppearAux seen l ↔ z ∈ l ∧ z ∉ seen := by
  induction l generalizing seen with
  | nil => simp [dedupAppearAux]
  | cons x xs ih =>
      simp only [dedupAppearAux]
      split
      · rename_i hx
        rw [ih]
        simp only [List.mem_cons]
        constructor
        · rintro ⟨h1, h2⟩
          exact ⟨Or.inr h1, h2⟩
        · rintro ⟨h1 | h1, h2⟩
          · exact absurd (h1 ▸ hx) h2
          · exact ⟨h1, h2⟩
      · rename_i hx
        simp only [List.mem_cons, ih]
        constructor
        · rintro (rfl | ⟨h1, h2⟩)
          · exact ⟨Or.inl rfl, hx⟩
          · exact ⟨Or.inr h1, fun hz => h2 (Or.inr hz)⟩
        · rintro ⟨rfl | h1, h2⟩
          · exact Or.inl rfl
          · by_cases hzx : z = x
            · exact Or.inl hzx
            · exact Or.inr ⟨h1, by
                simp only [List.mem_cons, not_or]
                exact ⟨hzx, h2⟩⟩

theorem mem_dedupAppear (l : List String) (z : String) :
    z ∈ dedupAppear l ↔ z ∈ l := by
  rw [dedupAppear, mem_dedupAppearAux]
  simp

theorem sorted_dedupAppearAux (seen l : List String)
    (h : l.Pairwise (fun a b => a ≤ b)) :
    (dedupAppearAux seen l).Pairwise (fun a b => a < b) := by
  induction l generalizing seen with
  | nil => simp [dedupAppearAux]
  | cons x xs ih =>
      rcases List.pairwise_cons.mp h with ⟨hx, hxs⟩
      simp only [dedupAppearAux]
      split
      · exact ih _ hxs
      · refine List.pairwise_cons.mpr ⟨?_, ih _ hxs⟩
        intro z hz
        rcases (mem_dedupAppearAux _ _ _).mp hz with ⟨h1, h2⟩
        have hne : z ≠ x := fun he => h2 (by rw [he]; exact List.mem_cons_self x seen)
        exact lt_of_le_of_ne (hx z h1) (Ne.symm hne)

theorem sorted_dedupAppear (l : List String) (h : l.Pairwise (fun a b => a ≤ b)) :
    (dedupAppear l).Pairwise (fun a b => a < b) :=
  sorted_dedupAppearAux [] l h

/-- The first component of a state-major flatMap is weakly ascending when
the keys are strictly ascending and each block is constant in it. -/
theorem pairwise_le_map_fst_flatMap {γ : Type} (ks : List String)
    (f : String → List γ) (g : γ → String)
    (hconst : ∀ s, ∀ x ∈ f s, g x = s)
    (hkeys : ks.Pairwise (fun a b => a < b)) :
    ((ks.flatMap f).map g).Pairwise (fun a b => a ≤ b) := by
  rw [List.map_flatMap, List.pairwise_flatMap]
  constructor
  · intro s hs
    refine List.pairwise_map.mpr ?_
    refine List.pairwise_of_forall_mem_list ?_
    intro a ha b hb
    rw [hconst s a ha, hconst s b hb]
  · refine List.Pairwise.imp_of_mem ?_ hkeys
    intro s1 s2 hs1 hs2 hlt x hx y hy
    rw [List.mem_map] at hx hy
    obtain ⟨a, ha, rfl⟩ := hx
    obtain ⟨b, hb, rfl⟩ := hy
    rw [hconst s1 a ha, hconst s2 b hb]
    exact le_of_lt hlt

theorem mem_stateCatOrders (v : List OrderRecord) (s c : String) (n : Nat) :
    (s, c, n) ∈ stateCatOrders v ↔
      (∃ r ∈ v, r.shipping_state = s ∧ r.product_category = c)
      ∧ n = pairCount v s c := by
  rw [stateCatOrders, List.mem_flatMap]
  constructor
  · rintro ⟨s2, hs2, he⟩
    rw [List.mem_map] at he
    obtain ⟨c2, hc2, heq⟩ := he
    obtain ⟨rfl, rfl, rfl⟩ : s2 = s ∧ c2 = c ∧ pairCount v s2 c2 = n := by
      rw [Prod.mk.injEq, Prod.mk.injEq] at heq
      exact ⟨heq.1, heq.2.1, heq.1 ▸ heq.2.2⟩
    rw [mem_sortedKeys, List.mem_map] at hc2
    obtain ⟨r, hr, hrc⟩ := hc2
    rw [List.mem_filter] at hr
    exact ⟨⟨r, hr.1, by simpa using hr.2, hrc⟩, rfl⟩
  · rintro ⟨⟨r, hrv, hs, hc⟩, rfl⟩
    refine ⟨s, ?_, ?_⟩
    · rw [mem_sortedKeys, List.mem_map]
      exact ⟨r, hrv, hs⟩
    · rw [List.mem_map]
      refine ⟨c, ?_, rfl⟩
      rw [mem_sortedKeys, List.mem_map]
      exact ⟨r, List.mem_filter.mpr ⟨hrv, by simpa using hs⟩, hc⟩

theorem stateCat_fst_ascending (v : List OrderRecord) :
    ((stateCatOrders v).map (fun e => e.1)).Pairwise (fun a b => a ≤ b) := by
  rw [stateCatOrders]
  refine pairwise_le_map_fst_flatMap _ _ _ ?_ (sorted_sortedKeys _)
  intro s x hx
  rw [List.mem_map] at hx
  obtain ⟨c, _, rfl⟩ := hx
  rfl

theorem restricted_fst_ascending (v : List OrderRecord) (N : Nat) :
    ((restrictedPairs v N).map (fun e => e.1)).Pairwise (fun a b => a ≤ b) :=
  List.Pairwise.sublist
    (List.Sublist.map _ (List.filter_sublist _)) (stateCat_fst_ascending v)

/-- C7 amended: heatmap_data is dense and rectangular — every cell over
rows × cols carries the exact pair count of the restricted view, absent
pairs included as 0 — but the row order is ascending by state name (the
group-by order that pivot preserves), not the top-N volume ranking. -/
theorem pivot_dense_rows_ascending (v : List OrderRecord) (N : Nat) :
    (pivotRows v N).Pairwise (fun a b => a < b)
    ∧ (pivotMatrix v N).length = (pivotRows v N).length
    ∧ (∀ row ∈ pivotMatrix v N, row.length = (pivotCols v N).length)
    ∧ (∀ s ∈ pivotRows v N, ∀ c ∈ pivotCols v N,
        pivotCell v N s c = pairCount v s c) := by
  refine ⟨sorted_dedupAppear _ (restricted_fst_ascending v N), by
    simp [pivotMatrix], ?_, ?_⟩
  · intro row hrow
    rw [pivotMatrix, List.mem_map] at hrow
    obtain ⟨s, _, rfl⟩ := hrow
    simp
  · intro s hs c hc
    rw [pivotCell]
    rcases hfind : (restrictedPairs v N).find? (fun e => e.1 == s && e.2.1 == c)
      with _ | e
    · rw [hfind]
      rw [List.find?_eq_none] at hfind
      by_contra hne
      have hpos : pairCount v s c ≠ 0 := fun h0 => hne h0.symm
      have hex : ∃ r ∈ v, r.shipping_state = s ∧ r.product_category = c := by
        rcases hcl : v.filter (fun r => r.shipping_state == s && r.product_category == c)
          with _ | ⟨r, t⟩
        · exact absurd (by rw [pairCount, hcl]; rfl) hpos
        · have hr : r ∈ v.filter
              (fun r => r.shipping_state == s && r.product_category == c) := by
            rw [hcl]; exact List.mem_cons_self r t
          rw [List.mem_filter, Bool.and_eq_true, beq_iff_eq, beq_iff_eq] at hr
          exact ⟨r, hr.1, hr.2.1, hr.2.2⟩
      have hstop : (topStatesList v N).contains s = true := by
        rw [pivotRows, mem_dedupAppear, List.mem_map] at hs
        obtain ⟨e2, he2, hfst⟩ := hs
        rw [restrictedPairs, List.mem_filter] at he2
        exact hfst ▸ he2.2
      have hmem : (s, c, pairCount v s c) ∈ restrictedPairs v N := by
        rw [restrictedPairs, List.mem_filter]
        exact ⟨(mem_stateCatOrders v s c _).mpr ⟨hex, rfl⟩, hstop⟩
      have := hfind _ hmem
      simp at this
    · rw [hfind]
      have hp := List.find?_some hfind
      have hm : e ∈ stateCatOrders v :=
        List.mem_of_mem_filter (List.mem_of_find?_eq_some hfind)
      rcases e with ⟨s2, c2, n⟩
      rw [Bool.and_eq_true, beq_iff_eq, beq_iff_eq] at hp
      obtain ⟨rfl, rfl⟩ : s2 = s ∧ c2 = c := hp
      exact ((mem_stateCatOrders v s2 c2 n).mp hm).2

/-- A non-cancelled order in state A, category X. -/
def stA : OrderRecord :=
  { order_id := 11, order_date := 20240101, order_status := "Shipped", sale_amount := 10,
    product_category := "X", fulfillment_type := "Amazon", shipping_state := "A",
    business_to_business := false, promotion_ids := none }

/-- A first non-cancelled order in state B, category X. -/
def stB1 : OrderRecord :=
  { order_id := 12, order_date := 20240101, order_status := "Shipped", sale_amount := 10,
    product_category := "X", fulfillment_type := "Amazon", shipping_state := "B",
    business_to_business := false, promotion_ids := none }

/-- A second non-cancelled order in state B, category X. -/
def stB2 : OrderRecord :=
  { order_id := 13, order_date := 20240101, order_status := "Shipped", sale_amount := 10,
    product_category := "X", fulfillment_type := "Amazon", shipping_state := "B",
    business_to_business := false, promotion_ids := none }

/-- A view where state B has the larger order volume (2 vs 1). -/
def pivotView : List OrderRecord := [stA, stB1, stB2]

/-- C7 counterexample: state B tops the volume ranking, yet the heatmap
rows come out in ascending state-name order A, B — the row order does not
follow the top-N ranking. -/
theorem pivot_rows_not_in_ranking_order :
    pivotRows pivotView 2 = ["A", "B"] ∧ topStatesList pivotView 2 = ["B", "A"] := by
  have hs : sortedKeys (pivotView.map (fun r => r.shipping_state)) = ["A", "B"] := by
    simp only [pivotView, stA, stB1, stB2, List.map_cons, List.map_nil,
      sortedKeys, List.foldr_cons, List.foldr_nil, insortDedup]
    simp +decide [strLtAB, strNotLtBA]
  have htop : topStatesList pivotView 2 = ["B", "A"] := by
    simp only [topStatesList, totalPerState]
    rw [hs]
    simp +decide [sortDescBy, insertDescBy, pivotView, stA, stB1, stB2]
  refine ⟨?_, htop⟩
  simp only [pivotRows, restrictedPairs, stateCatOrders]
  rw [hs, htop]
  simp +decide [pivotView, stA, stB1, stB2, sortedKeys, insortDedup, pairCount,
    dedupAppear, dedupAppearAux]

/-- Witness for C7 at the single-state example view: the (S, A) cell holds
that pair's exact count. -/
theorem pivot_dense_witness :
    pivotCell exampleDaysView 2 "S" "A" = pairCount exampleDaysView "S" "A" :=
  (pivot_dense_rows_ascending exampleDaysView 2).2.2.2 "S" (by decide) "A" (by decide)

/-- The heatmap source exactly as update_dashboard builds it (app.py line
828): the module-global non_cancelled_orders — the non-cancelled BASE
table — with N = 15 (line 836); the filter parameters play no part. -/
def heatmapMatrixInCallback (base : List OrderRecord) (_sd _ed : Option Nat)
    (_cat : Option String) : List (List Nat) :=
  pivotMatrix (nonCancelled base) 15

/-- A January order in state S, category X. -/
def recJanS : OrderRecord :=
  { order_id := 21, order_date := 20240101, order_status := "Shipped", sale_amount := 10,
    product_category := "X", fulfillment_type := "Amazon", shipping_state := "S",
    business_to_business := false, promotion_ids := none }

/-- A February order in state S, category X. -/
def recFebS : OrderRecord :=
  { order_id := 22, order_date := 20240201, order_status := "Shipped", sale_amount := 10,
    product_category := "X", fulfillment_type := "Amazon", shipping_state := "S",
    business_to_business := false, promotion_ids := none }

/-- The two-order base table exhibiting the C2 divergence. -/
def bugBase : List OrderRecord := [recJanS, recFebS]

/-- C2: with a February-only date filter the filtered non-cancelled view
holds one order, yet the callback's heatmap cell for (S, X) counts 2 — it
is computed from the unfiltered base — while the same pivot applied to the
filtered view would count 1. -/
theorem heatmap_built_from_unfiltered_base :
    heatmapMatrixInCallback bugBase (some 20240201) (some 20240228) none = [[2]]
    ∧ (nonCancelled (filterData bugBase (some 20240201) (some 20240228) none)).length = 1
    ∧ pivotMatrix (nonCancelled (filterData bugBase (some 20240201) (some 20240228) none)) 15
        = [[1]] := by
  decide

end DataViz
